import Mathlib

/-!
Shallow embedding of `docuspark.py` (DocuSpark document-ingestion pipeline).

External collaborators (PIL, pytesseract, pdfplumber, python-docx,
python-pptx, pypandoc, the filesystem) are modelled as explicit inputs:
each call that can fail is an `Except` value supplied by an environment,
and in-memory bitmaps are an abstract stand-in type.  The control flow,
string formatting, accumulation order and error handling of the Python
source are translated statement by statement.
-/

namespace DocuSpark

/-- Stand-in for a decoded in-memory bitmap (PIL `Image`); the pipeline
never inspects pixel data, it only moves bitmaps around and saves them. -/
abbrev Bitmap := Nat

/-- `RAW_DIR = "data"` from the configuration block. -/
def RAW_DIR : String := "data"

/-- `OUTPUT_DIR = "clean_md"` from the configuration block. -/
def OUTPUT_DIR : String := "clean_md"

/-- `SUPPORTED_TYPES` from the configuration block (a Python set; modelled
as a list, only membership is ever used). -/
def SUPPORTED_TYPES : List String := [".pdf", ".docx", ".pptx", ".txt", ".html", ".htm", ".rtf"]

/-- Model of `os.path.join(a, b)` for the relative, non-empty path pieces
this program produces. -/
def joinPath (a b : String) : String := a ++ "/" ++ b

/-- Index of the last occurrence of `c` in `s`, or `-1` when absent:
model of Python `str.rfind` as used by `posixpath.splitext`. -/
def rfindIdx (s : List Char) (c : Char) : Int :=
  match s.reverse.findIdx? (fun ch => ch == c) with
  | some i => (s.length : Int) - 1 - (i : Int)
  | none => -1

/-- Model of CPython `posixpath.splitext` (`os.path.splitext` on posix):
split at the last dot of the basename unless only dots precede it. -/
def splitextList (p : List Char) : List Char × List Char :=
  let sepIndex := rfindIdx p '/'
  let dotIndex := rfindIdx p '.'
  if sepIndex < dotIndex then
    let nameStart := (sepIndex + 1).toNat
    let dotPos := dotIndex.toNat
    if ((p.drop nameStart).take (dotPos - nameStart)).all (fun ch => ch == '.') then
      (p, [])
    else
      (p.take dotPos, p.drop dotPos)
  else (p, [])

/-- `os.path.splitext` on strings. -/
def splitext (p : String) : String × String :=
  let r := splitextList p.data
  (String.mk r.1, String.mk r.2)

/-- `os.path.splitext(p)[1].lower()` as computed in `convert_file` and
`run_pipeline`. -/
def lowerExt (p : String) : String :=
  String.mk ((splitext p).2.data.map Char.toLower)

/-- Model of `os.path.relpath(p, start)` restricted to the path shapes this
program produces (`p` equal to `start` or strictly below it); no `..` or
`.`-segment normalisation is needed for those inputs. -/
def relpathModel (p start : String) : String :=
  if p = start then "."
  else if (start ++ "/").data.isPrefixOf p.data then String.mk (p.data.drop (start.length + 1))
  else p

/-- Model of Python `str.strip()`: drop whitespace from both ends. -/
def pyStrip (s : String) : String :=
  String.mk (((s.data.dropWhile Char.isWhitespace).reverse.dropWhile Char.isWhitespace).reverse)

/-- The fixed fallback sentence of `describe_image`. -/
def ocrFallback : String := "No readable text detected. Consider using a captioning model."

/-- `describe_image(image_path)`.  The `Image.open` + `pytesseract` call is
the collaborator: it either yields the recognised text or raises with a
message, which we receive as an `Except String String`.  Python's
`if not text.strip()` is true exactly when the stripped text is empty. -/
def describe_image (ocrResult : Except String String) : String :=
  match ocrResult with
  | .ok raw =>
      let text := if pyStrip raw = "" then ocrFallback else raw
      pyStrip text
  | .error e => "Failed to describe image: " ++ e

/-- One `![Figure idx](relpath)` line of `add_images_to_markdown`. -/
def figureLine (idx : Nat) (imgPath : String) : String :=
  "![Figure " ++ toString idx ++ "](" ++ relpathModel imgPath OUTPUT_DIR ++ ")"

/-- One `**Description:** ...` line of `add_images_to_markdown`; the OCR
environment maps an image path to the collaborator outcome for it. -/
def descriptionLine (ocr : String → Except String String) (imgPath : String) : String :=
  "**Description:** " ++ describe_image (ocr imgPath) ++ "\n"

/-- The `for idx, img_path in enumerate(image_paths, start=1)` loop body of
`add_images_to_markdown`, appending two lines per image. -/
def addImagesLoop (ocr : String → Except String String) : Nat → List String → List String
  | _, [] => []
  | idx, p :: rest =>
      figureLine idx p :: descriptionLine ocr p :: addImagesLoop ocr (idx + 1) rest

/-- The heading element pushed before the per-image lines. -/
def imagesHeaderLine : String := "\n\n## Extracted Images\n"

/-- `add_images_to_markdown(md, image_paths)`. -/
def add_images_to_markdown (ocr : String → Except String String)
    (md : String) (imagePaths : List String) : String :=
  if imagePaths = [] then md
  else String.intercalate "\n" (md :: imagesHeaderLine :: addImagesLoop ocr 1 imagePaths)

/-- One image region reported by pdfplumber on a page: the
`page.crop(bbox).to_image(resolution=300).original` collaborator call
either yields a bitmap or raises (caught by the bare `except: continue`). -/
abbrev PdfImgOutcome := Except Unit Bitmap

/-- One pdfplumber page: `page.extract_text()` may return `None`, and the
page reports an ordered list of image regions. -/
structure PdfPage where
  text : Option String
  images : List PdfImgOutcome

/-- The inner `for img_idx, img in enumerate(page.images, start=1)` loop of
`convert_pdf`: failed crops are dropped, successes are named
`img_{page_idx}_{img_idx}.png`. -/
def pdfImgLoop (pageIdx : Nat) : Nat → List PdfImgOutcome → List (Bitmap × String)
  | _, [] => []
  | imgIdx, o :: rest =>
      (match o with
       | .ok b => [(b, "img_" ++ toString pageIdx ++ "_" ++ toString imgIdx ++ ".png")]
       | .error _ => []) ++ pdfImgLoop pageIdx (imgIdx + 1) rest

/-- The `for page_idx, page in enumerate(pdf.pages, start=1)` loop of
`convert_pdf`, accumulating `text_parts` and `images`. -/
def pdfPageLoop : Nat → List PdfPage → List String × List (Bitmap × String)
  | _, [] => ([], [])
  | pageIdx, pg :: rest =>
      let more := pdfPageLoop (pageIdx + 1) rest
      ((pg.text.getD "") :: more.1, pdfImgLoop pageIdx 1 pg.images ++ more.2)

/-- `convert_pdf(input_path)`: `pdfplumber.open` either yields the pages or
raises with a message (caught and logged); either way the function returns
`"\n\n".join(text_parts), images`. -/
def convert_pdf (doc : Except String (List PdfPage)) : String × List (Bitmap × String) :=
  match doc with
  | .error _ => ("", [])
  | .ok pages =>
      let r := pdfPageLoop 1 pages
      (String.intercalate "\n\n" r.1, r.2)

/-- Does `sub` occur as a contiguous substring of `s`?  Model of Python's
`sub in s` on strings. -/
def hasSubstr (sub : List Char) : List Char → Bool
  | [] => sub.isEmpty
  | c :: rest => sub.isPrefixOf (c :: rest) || hasSubstr sub rest

/-- One relationship part of a DOCX package: its target reference string and
the `rel.target_part.blob` decode outcome (`Image.open` may raise; caught by
the bare `except: continue`). -/
structure Rel where
  target_ref : String
  blob : Except Unit Bitmap

/-- A python-docx document: ordered paragraph texts and the relationship
parts in `doc.part.rels.values()` iteration order. -/
structure DocxDoc where
  paragraphs : List String
  rels : List Rel

/-- The `for idx, rel in enumerate(doc.part.rels.values(), start=1)` loop of
`convert_docx`: the counter advances on every relationship, image or not. -/
def docxRelLoop : Nat → List Rel → List (Bitmap × String)
  | _, [] => []
  | idx, r :: rest =>
      (if hasSubstr "image".data r.target_ref.data then
        match r.blob with
        | .ok b => [(b, "img_" ++ toString idx ++ ".png")]
        | .error _ => []
      else []) ++ docxRelLoop (idx + 1) rest

/-- `convert_docx(input_path)`: `Document` either yields the document or
raises (caught and logged); the return is `"\n".join(text_parts), images`. -/
def convert_docx (doc : Except String DocxDoc) : String × List (Bitmap × String) :=
  match doc with
  | .error _ => ("", [])
  | .ok d => (String.intercalate "\n" d.paragraphs, docxRelLoop 1 d.rels)

/-- One python-pptx shape: `hasattr(shape, "text")` with its value,
`shape.shape_type` as the raw enum integer, and the
`Image.open(io.BytesIO(shape.image.blob))` outcome for picture shapes. -/
structure Shape where
  text : Option String
  shape_type : Int
  imageBlob : Except Unit Bitmap

/-- One slide: its shapes in shape order. -/
structure Slide where
  shapes : List Shape

/-- A python-pptx presentation: slides in slide order. -/
structure PptxDoc where
  slides : List Slide

/-- The `for shape in slide.shapes` loop body of `convert_pptx`: text-bearing
shapes push one element onto `text_parts`, picture shapes (type 13) whose
blob decodes push one image named `img_slide{slide_idx}.png`. -/
def pptxShape (slideIdx : Nat) (sh : Shape) : List String × List (Bitmap × String) :=
  ((match sh.text with
    | some t => [t]
    | none => []),
   if sh.shape_type = 13 then
     match sh.imageBlob with
     | .ok b => [(b, "img_slide" ++ toString slideIdx ++ ".png")]
     | .error _ => []
   else [])

/-- The `for slide_idx, slide in enumerate(prs.slides, start=1)` loop of
`convert_pptx`: the heading `# Slide {slide_idx}` goes onto `text_parts`
before the slide's shapes are processed. -/
def pptxSlideLoop : Nat → List Slide → List String × List (Bitmap × String)
  | _, [] => ([], [])
  | slideIdx, s :: rest =>
      let more := pptxSlideLoop (slideIdx + 1) rest
      ((("# Slide " ++ toString slideIdx) :: s.shapes.flatMap (fun sh => (pptxShape slideIdx sh).1)) ++ more.1,
       s.shapes.flatMap (fun sh => (pptxShape slideIdx sh).2) ++ more.2)

/-- `convert_pptx(input_path)`: `Presentation` either yields the deck or
raises (caught and logged); the return is `"\n\n".join(text_parts), images`. -/
def convert_pptx (doc : Except String PptxDoc) : String × List (Bitmap × String) :=
  match doc with
  | .error _ => ("", [])
  | .ok d =>
      let r := pptxSlideLoop 1 d.slides
      (String.intercalate "\n\n" r.1, r.2)

/-- `convert_generic(input_path)`: `pypandoc.convert_file(input_path, "md")`
either yields the converted text or raises, in which case the function
returns `None, []`. -/
def convert_generic (res : Except String String) : Option String × List (Bitmap × String) :=
  match res with
  | .ok t => (some t, [])
  | .error _ => (none, [])

/-- The collaborator outcomes available for one input path: what each
format-parsing library would produce if invoked on that path. -/
structure FileEnv where
  pdf : Except String (List PdfPage)
  docx : Except String DocxDoc
  pptx : Except String PptxDoc
  pandoc : Except String String

/-- `convert_file(input_path)`: the extension dispatcher.  The PDF, DOCX and
PPTX converters always return a genuine string, so their results are wrapped
in `some`; only the generic converter and the fall-through return `none`. -/
def convert_file (env : FileEnv) (p : String) : Option String × List (Bitmap × String) :=
  let ext := lowerExt p
  if ext = ".pdf" then
    let r := convert_pdf env.pdf
    (some r.1, r.2)
  else if ext = ".docx" then
    let r := convert_docx env.docx
    (some r.1, r.2)
  else if ext = ".pptx" then
    let r := convert_pptx env.pptx
    (some r.1, r.2)
  else if ext ∈ ([".txt", ".html", ".htm", ".rtf"] : List String) then
    convert_generic env.pandoc
  else (none, [])

/-- Observable effects of one `run_pipeline` loop iteration, in program
order.  `dispatch` marks the `convert_file` call (the `Processing:` print
immediately precedes it); `saveImage` is emitted only when `im.save`
succeeds, `logSaveFail` when it raises. -/
inductive Event where
  | ensureDir : String → Event
  | dispatch : String → Event
  | logSkip : String → Event
  | saveImage : String → Event
  | logSaveFail : String → Event
  | writeFile : String → String → Event
deriving DecidableEq

/-- The `for im, img_name in images` save loop of `run_pipeline` (lines
174-183): per image it recomputes and ensures the `images` subfolder, then
attempts the save; successful paths are appended to `img_paths`.  Returns
the emitted events and the final `img_paths` list. -/
def saveImages (saveOk : String → Bool) (outputDir : String) :
    List (Bitmap × String) → List Event × List String
  | [] => ([], [])
  | (_, imgName) :: rest =>
      let imgFolder := joinPath outputDir "images"
      let imgPath := joinPath imgFolder imgName
      let more := saveImages saveOk outputDir rest
      if saveOk imgPath then
        (Event.ensureDir imgFolder :: Event.saveImage imgPath :: more.1, imgPath :: more.2)
      else
        (Event.ensureDir imgFolder :: Event.logSaveFail imgName :: more.1, more.2)

/-- `os.path.join(root, file)` for the current file. -/
def inputPathOf (root file : String) : String := joinPath root file

/-- `os.path.join(OUTPUT_DIR, os.path.relpath(root, RAW_DIR))`. -/
def outputDirOf (root : String) : String :=
  joinPath OUTPUT_DIR (relpathModel root RAW_DIR)

/-- `os.path.join(output_dir, os.path.splitext(file)[0] + ".md")`. -/
def mdOutputPathOf (root file : String) : String :=
  joinPath (outputDirOf root) ((splitext file).1 ++ ".md")

/-- The part of the loop body after `convert_file` returns: skip on absent
text, otherwise save images, assemble, and write the Markdown file. -/
def processBody (ocr : String → Except String String) (saveOk : String → Bool)
    (inputPath outputDir mdOutputPath : String)
    (conv : Option String × List (Bitmap × String)) : List Event :=
  Event.ensureDir outputDir :: Event.dispatch inputPath ::
    match conv with
    | (none, _) => [Event.logSkip inputPath]
    | (some md, images) =>
        let sv := saveImages saveOk outputDir images
        sv.1 ++ [Event.writeFile mdOutputPath (add_images_to_markdown ocr md sv.2)]

/-- One iteration of the inner `for file in sorted(files)` loop of
`run_pipeline` for the file `file` inside the directory `root`: unsupported
extensions are skipped before any effect; otherwise the output directory is
ensured, the file dispatched, and the body runs. -/
def processFile (fsEnv : String → FileEnv) (ocr : String → Except String String)
    (saveOk : String → Bool) (root file : String) : List Event :=
  if lowerExt file ∈ SUPPORTED_TYPES then
    processBody ocr saveOk (inputPathOf root file) (outputDirOf root) (mdOutputPathOf root file)
      (convert_file (fsEnv (inputPathOf root file)) (inputPathOf root file))
  else []

/-- A directory entry as reported by the operating system: `os.walk` reports
children in the order the OS listing returns them, which the program never
sorts. -/
inductive FsEntry where
  | file : String → FsEntry
  | dir : String → List FsEntry → FsEntry

/-- The name of an entry. -/
def FsEntry.name : FsEntry → String
  | .file n => n
  | .dir n _ => n

/-- The `files` component `os.walk` reports for a directory with the given
children, in listing order. -/
def fileNamesOf (children : List FsEntry) : List String :=
  children.filterMap fun e =>
    match e with
    | .file n => some n
    | .dir _ _ => none

mutual
/-- The subtree `os.walk` yields below one child entry of the directory at
`path`: nothing for a file, and for a directory its own `(root, files)` pair
followed by its subtree, depth first.  `os.walk` is top-down and the program
leaves `dirs` unmodified, so listing order is visit order. -/
def walkEntry (path : String) : FsEntry → List (String × List String)
  | .file _ => []
  | .dir n c => (path ++ "/" ++ n, fileNamesOf c) :: walkList (path ++ "/" ++ n) c

/-- The concatenated subtrees of a directory's children, in listing order. -/
def walkList (path : String) : List FsEntry → List (String × List String)
  | [] => []
  | e :: rest => walkEntry path e ++ walkList path rest
end

/-- `os.walk(path)` over a directory with the given children, keeping only
the `(root, files)` components the pipeline reads. -/
def walk (path : String) (children : List FsEntry) : List (String × List String) :=
  (path, fileNamesOf children) :: walkList path children

/-- Lexicographic code-point comparison on character lists: the order
Python's `sorted` uses on strings. -/
def strLeChars : List Char → List Char → Bool
  | [], _ => true
  | _ :: _, [] => false
  | a :: as, b :: bs => if a = b then strLeChars as bs else decide (a < b)

/-- `a <= b` in Python string order. -/
def strLe (a b : String) : Bool := strLeChars a.data b.data

/-- Model of Python `sorted(files)`: a sort by the code-point order. -/
def sortedFiles (files : List String) : List String :=
  List.insertionSort (fun a b => strLe a b = true) files

/-- The order in which `run_pipeline` processes input paths: `os.walk` order
over directories, `sorted(files)` within each directory (lines 152-153),
before the supported-extension filter. -/
def enumeratedPaths (tree : List FsEntry) : List String :=
  (walk RAW_DIR tree).flatMap fun pr => (sortedFiles pr.2).map fun f => joinPath pr.1 f

/-- Sort sibling entries by name with the same code-point order. -/
def sortEntriesByName (l : List FsEntry) : List FsEntry :=
  List.insertionSort (fun a b => strLe a.name b.name = true) l

mutual
/-- Recursively sort every directory's children by name. -/
def sortEntry : FsEntry → FsEntry
  | .file n => .file n
  | .dir n c => .dir n (sortEntriesByName (sortEntryList c))

/-- `sortEntry` mapped over a list of entries. -/
def sortEntryList : List FsEntry → List FsEntry
  | [] => []
  | e :: rest => sortEntry e :: sortEntryList rest
end

/-- Written from the spec's words for claim C6, to be compared with
`enumeratedPaths`: enumeration that visits directories in name order
(walking the name-sorted tree) while still sorting files in each
directory. -/
def enumeratedPathsNameOrder (tree : List FsEntry) : List String :=
  enumeratedPaths (sortEntriesByName (sortEntryList tree))

/-- Written from the spec's words for claim C5, to be compared with
`convert_pptx`: per slide, the heading and the slide's shape texts joined
by single newlines, and the per-slide blocks joined by a blank line. -/
def pptxTextClaimed (d : PptxDoc) : String :=
  String.intercalate "\n\n"
    (((List.range' 1 d.slides.length).zip d.slides).map fun is =>
      String.intercalate "\n" (("# Slide " ++ toString is.1) :: is.2.shapes.filterMap Shape.text))

/-! ### Helper lemmas -/

/-- The enumerate-from-`s` loop of the assembler produces exactly the lines
indexed by `List.range' s ps.length`, paired with the paths in order. -/
lemma addImagesLoop_eq (ocr : String → Except String String) (ps : List String) :
    ∀ s : Nat, addImagesLoop ocr s ps =
      ((List.range' s ps.length).zip ps).flatMap
        (fun ip => [figureLine ip.1 ip.2, descriptionLine ocr ip.2]) := by
  induction ps with
  | nil => intro s; simp [addImagesLoop]
  | cons p rest ih =>
      intro s
      simp [addImagesLoop, List.range'_succ, ih (s + 1)]

/-- `List.range' s n` steps by exactly one at each link. -/
lemma chain'_consecutive_range' (n : Nat) : ∀ s : Nat,
    List.Chain' (fun a b => b = a + 1) (List.range' s n) := by
  induction n with
  | zero => intro s; exact List.chain'_nil
  | succ m ih =>
      intro s
      cases m with
      | zero => exact List.chain'_singleton s
      | succ k =>
          rw [List.range'_succ, List.range'_succ]
          refine List.chain'_cons.mpr ⟨rfl, ?_⟩
          rw [← List.range'_succ]
          exact ih (s + 1)

/-- The save loop keeps exactly the paths whose save succeeded, in order. -/
lemma saveImages_paths (saveOk : String → Bool) (outputDir : String) :
    ∀ imgs : List (Bitmap × String), (saveImages saveOk outputDir imgs).2 =
      imgs.filterMap fun bn =>
        if saveOk (joinPath (joinPath outputDir "images") bn.2) then
          some (joinPath (joinPath outputDir "images") bn.2)
        else none := by
  intro imgs
  induction imgs with
  | nil => rfl
  | cons hd tl ih =>
      obtain ⟨b, nm⟩ := hd
      by_cases hs : saveOk (joinPath (joinPath outputDir "images") nm) = true
      · simp [saveImages, hs, ih]
      · simp [saveImages, hs, ih]

/-- The save loop emits an `ensureDir` for the images subfolder exactly when
there is at least one image to save. -/
lemma ensureDir_mem_saveImages (saveOk : String → Bool) (outputDir : String) :
    ∀ imgs : List (Bitmap × String),
      (Event.ensureDir (joinPath outputDir "images") ∈ (saveImages saveOk outputDir imgs).1
        ↔ imgs ≠ []) := by
  intro imgs
  cases imgs with
  | nil => simp [saveImages]
  | cons hd tl =>
      obtain ⟨b, nm⟩ := hd
      by_cases hs : saveOk (joinPath (joinPath outputDir "images") nm) = true
      · simp [saveImages, hs]
      · simp [saveImages, hs]

/-- Appending a separator and a component strictly lengthens a path. -/
lemma joinPath_ne_self (d s : String) : joinPath d s ≠ d := by
  intro h
  have hl := congrArg String.length h
  rw [joinPath, String.length_append, String.length_append] at hl
  have hone : ("/" : String).length = 1 := rfl
  rw [hone] at hl
  omega

/-- Within one slide, the shape loop contributes exactly the texts of the
text-bearing shapes, in shape order. -/
lemma pptxShape_texts (i : Nat) (shapes : List Shape) :
    shapes.flatMap (fun sh => (pptxShape i sh).1) = shapes.filterMap Shape.text := by
  induction shapes with
  | nil => rfl
  | cons sh tl ih =>
      rw [List.flatMap_cons, List.filterMap_cons]
      simp only [pptxShape] at ih ⊢
      cases h : sh.text with
      | none => simp [h, ih]
      | some t => simp [h, ih]

/-- The slide loop flattens headings and shape texts into one list of parts,
slides indexed by `List.range' s`. -/
lemma pptxSlideLoop_text (slides : List Slide) : ∀ s : Nat,
    (pptxSlideLoop s slides).1 =
      ((List.range' s slides.length).zip slides).flatMap
        (fun is => ("# Slide " ++ toString is.1) :: is.2.shapes.filterMap Shape.text) := by
  induction slides with
  | nil => intro s; simp [pptxSlideLoop]
  | cons sl tl ih =>
      intro s
      simp [pptxSlideLoop, List.range'_succ, pptxShape_texts s sl.shapes, ih (s + 1)]

/-- The relationship loop of `convert_docx`, with counter starting at `s`,
indexes every relationship by `List.range' s` and keeps only decodable image
relationships. -/
lemma docxRelLoop_eq (rels : List Rel) : ∀ s : Nat,
    docxRelLoop s rels =
      ((List.range' s rels.length).zip rels).flatMap (fun ir =>
        if hasSubstr "image".data ir.2.target_ref.data then
          match ir.2.blob with
          | .ok b => [(b, "img_" ++ toString ir.1 ++ ".png")]
          | .error _ => []
        else []) := by
  induction rels with
  | nil => intro s; simp [docxRelLoop]
  | cons r tl ih =>
      intro s
      simp [docxRelLoop, List.range'_succ, ih (s + 1)]

/-- Code-point comparison is total. -/
lemma strLeChars_total : ∀ a b : List Char, strLeChars a b = true ∨ strLeChars b a = true := by
  intro a
  induction a with
  | nil => intro b; left; rfl
  | cons x xs ih =>
      intro b
      cases b with
      | nil => right; rfl
      | cons y ys =>
          by_cases hxy : x = y
          · subst hxy
            simp only [strLeChars, if_pos rfl]
            exact ih ys
          · rcases lt_or_gt_of_ne hxy with hlt | hgt
            · left
              simp only [strLeChars, if_neg hxy]
              exact decide_eq_true hlt
            · right
              simp only [strLeChars, if_neg (Ne.symm hxy)]
              exact decide_eq_true hgt

/-- Code-point comparison is transitive. -/
lemma strLeChars_trans : ∀ a b c : List Char,
    strLeChars a b = true → strLeChars b c = true → strLeChars a c = true := by
  intro a
  induction a with
  | nil => intro b c _ _; rfl
  | cons x xs ih =>
      intro b c hab hbc
      cases b with
      | nil => simp [strLeChars] at hab
      | cons y ys =>
          cases c with
          | nil => simp [strLeChars] at hbc
          | cons z zs =>
              by_cases hxy : x = y
              · subst hxy
                simp only [strLeChars, if_pos rfl] at hab
                by_cases hxz : x = z
                · subst hxz
                  simp only [strLeChars, if_pos rfl] at hbc ⊢
                  exact ih ys zs hab hbc
                · simp only [strLeChars, if_neg hxz] at hbc ⊢
                  exact hbc
              · simp only [strLeChars, if_neg hxy] at hab
                have hxy' : x < y := of_decide_eq_true hab
                by_cases hyz : y = z
                · subst hyz
                  simp only [strLeChars, if_neg hxy]
                  exact decide_eq_true hxy'
                · simp only [strLeChars, if_neg hyz] at hbc
                  have hyz' : y < z := of_decide_eq_true hbc
                  have hxz : x < z := lt_trans hxy' hyz'
                  simp only [strLeChars, if_neg (ne_of_lt hxz)]
                  exact decide_eq_true hxz

instance : IsTotal String (fun a b : String => strLe a b = true) :=
  ⟨fun a b => strLeChars_total a.data b.data⟩

instance : IsTrans String (fun a b : String => strLe a b = true) :=
  ⟨fun a b c => strLeChars_trans a.data b.data c.data⟩

/-! ### Claim theorems -/

/-- Claim C1: for every base text and every non-empty list of saved image
paths, the assembled Markdown labels the images `Figure 1 .. Figure n` —
strictly increasing by exactly one, starting at 1, no gaps, no repeats, in
the order of the saved-image list, with as many figure labels as paths; and
the pipeline's saved-image list keeps exactly the successfully saved paths
in order, so failed saves are excluded before numbering. -/
theorem c1_figure_numbering (ocr : String → Except String String) (md : String)
    (paths : List String) (saveOk : String → Bool) (outputDir : String)
    (images : List (Bitmap × String)) (h : paths ≠ []) :
    add_images_to_markdown ocr md paths =
      String.intercalate "\n" (md :: imagesHeaderLine ::
        ((List.range' 1 paths.length).zip paths).flatMap
          (fun ip => [figureLine ip.1 ip.2, descriptionLine ocr ip.2])) ∧
    (List.range' 1 paths.length).length = paths.length ∧
    List.Chain' (fun a b => b = a + 1) (List.range' 1 paths.length) ∧
    (List.range' 1 paths.length).head? = some 1 ∧
    (saveImages saveOk outputDir images).2 =
      images.filterMap (fun bn =>
        if saveOk (joinPath (joinPath outputDir "images") bn.2) then
          some (joinPath (joinPath outputDir "images") bn.2)
        else none) := by
  refine ⟨?_, ?_, ?_, ?_, ?_⟩
  · simp only [add_images_to_markdown, if_neg h]
    rw [addImagesLoop_eq ocr paths 1]
  · exact List.length_range' 1 1 paths.length
  · exact chain'_consecutive_range' paths.length 1
  · cases paths with
    | nil => exact absurd rfl h
    | cons p rest => rfl
  · exact saveImages_paths saveOk outputDir images

/-- Witness for C1 at a concrete non-empty path list. -/
theorem c1_figure_numbering_witness :
    (["clean_md/s/images/i.png"] : List String) ≠ [] ∧
    add_images_to_markdown (fun _ => Except.ok "t") "base" ["clean_md/s/images/i.png"] =
      "base\n\n\n## Extracted Images\n\n![Figure 1](s/images/i.png)\n**Description:** t\n" := by
  have h := c1_figure_numbering (fun _ => Except.ok "t") "base" ["clean_md/s/images/i.png"]
    (fun _ => true) "o" [] (by decide)
  exact ⟨by decide, h.1.trans (by decide)⟩

/-- Claim C2: on a document-level failure the Generic extractor returns
absent text, while the PDF, DOCX and PPTX extractors return empty text and
no images; through the dispatcher, only the Generic path yields the skip
signal `none`. -/
theorem c2_failure_signals (e : String) :
    convert_generic (Except.error e) = (none, []) ∧
    convert_pdf (Except.error e) = ("", []) ∧
    convert_docx (Except.error e) = ("", []) ∧
    convert_pptx (Except.error e) = ("", []) ∧
    convert_file ⟨Except.error e, Except.error e, Except.error e, Except.error e⟩ "doc.txt" =
      (none, []) ∧
    convert_file ⟨Except.error e, Except.error e, Except.error e, Except.error e⟩ "doc.pdf" =
      (some "", []) :=
  ⟨rfl, rfl, rfl, rfl, rfl, rfl⟩

/-- Claim C3: with an empty saved-image list the assembler returns the base
text unchanged — no heading, no other modification. -/
theorem c3_empty_list_unchanged (ocr : String → Except String String) (md : String) :
    add_images_to_markdown ocr md [] = md := rfl

/-- Claim C4: the Image Describer always returns a string (it is a total
function of the OCR outcome): empty or whitespace-only recognised text maps
to the fixed fallback, non-blank text to its stripped form, and an internal
failure to a descriptive error string embedding the reason. -/
theorem c4_describe_image_cases (t e : String) :
    (pyStrip t = "" → describe_image (Except.ok t) = ocrFallback) ∧
    (pyStrip t ≠ "" → describe_image (Except.ok t) = pyStrip t) ∧
    describe_image (Except.error e) = "Failed to describe image: " ++ e := by
  refine ⟨?_, ?_, rfl⟩
  · intro h
    simp only [describe_image]
    rw [if_pos h]
    decide
  · intro h
    simp only [describe_image]
    rw [if_neg h]

/-- Witness for C4 at whitespace-only and failing inputs. -/
theorem c4_describe_image_cases_witness :
    pyStrip "  " = "" ∧ describe_image (Except.ok "  ") = ocrFallback ∧
    describe_image (Except.error "boom") = "Failed to describe image: boom" := by
  have h := c4_describe_image_cases "  " "boom"
  exact ⟨by decide, h.1 (by decide), h.2.2⟩

/-- Counterexample to claim C5 as stated: with one slide holding two text
shapes, the code separates the shape texts with blank lines (every part is
joined with a blank-line separator), not with single newlines inside the
slide as the claim describes. -/
theorem c5_pptx_claim_false :
    (convert_pptx (Except.ok ⟨[⟨[⟨some "a", 0, Except.error ()⟩,
        ⟨some "b", 0, Except.error ()⟩]⟩]⟩)).1 ≠
      pptxTextClaimed ⟨[⟨[⟨some "a", 0, Except.error ()⟩, ⟨some "b", 0, Except.error ()⟩]⟩]⟩ := by
  decide

/-- Claim C5 as amended: the PPTX text contains, per slide in order, the
heading `# Slide i` followed by each text-bearing shape's text, but all
parts — headings and shape texts alike — are joined by the blank-line
separator. -/
theorem c5_pptx_text_layout (d : PptxDoc) :
    (convert_pptx (Except.ok d)).1 =
      String.intercalate "\n\n"
        (((List.range' 1 d.slides.length).zip d.slides).flatMap fun is =>
          ("# Slide " ++ toString is.1) :: is.2.shapes.filterMap Shape.text) := by
  show String.intercalate "\n\n" (pptxSlideLoop 1 d.slides).1 = _
  rw [pptxSlideLoop_text d.slides 1]

/-- Counterexample to claim C6 as stated: with the OS listing `b` before
`a`, the pipeline processes `b` first, so directories are not visited in
name order. -/
theorem c6_walk_claim_false :
    enumeratedPaths [.dir "b" [.file "x.txt"], .dir "a" [.file "y.txt"]] ≠
      enumeratedPathsNameOrder [.dir "b" [.file "x.txt"], .dir "a" [.file "y.txt"]] := by
  decide

/-- Claim C6 as amended: the pipeline visits directories in the order the
OS listing reports them (the code never sorts `dirs`), and within each
directory processes files in sorted name order. -/
theorem c6_enumeration_order (tree : List FsEntry) :
    enumeratedPaths tree =
      (walk RAW_DIR tree).flatMap (fun pr => (sortedFiles pr.2).map fun f => joinPath pr.1 f) ∧
    ∀ pr ∈ walk RAW_DIR tree,
      List.Sorted (fun a b : String => strLe a b = true) (sortedFiles pr.2) := by
  refine ⟨rfl, ?_⟩
  intro pr _
  exact List.sorted_insertionSort _ _

/-- Counterexample to claim C7 as stated: for a text file that converts
successfully but yields no images, the `images` subfolder is never ensured
at all, so in particular not before dispatch. -/
theorem c7_images_dir_claim_false :
    processFile (fun _ => ⟨Except.error "", Except.error "", Except.error "", Except.ok "hello"⟩)
        (fun _ => Except.ok "") (fun _ => true) "data" "a.txt" =
      [Event.ensureDir "clean_md/.", Event.dispatch "data/a.txt",
        Event.writeFile "clean_md/./a.md" "hello"] ∧
    Event.ensureDir (joinPath (outputDirOf "data") "images") ∉
      processFile (fun _ => ⟨Except.error "", Except.error "", Except.error "", Except.ok "hello"⟩)
        (fun _ => Except.ok "") (fun _ => true) "data" "a.txt" := by
  refine ⟨by decide, by decide⟩

/-- Claim C7 as amended: before dispatch the orchestrator ensures only the
mirrored output subfolder; the `images` subfolder is ensured during image
persistence, after dispatch, and appears in the trace exactly when
extraction succeeded with at least one image. -/
theorem c7_dir_creation_order (fsEnv : String → FileEnv) (ocr : String → Except String String)
    (saveOk : String → Bool) (root file : String) (h : lowerExt file ∈ SUPPORTED_TYPES) :
    (∃ rest, processFile fsEnv ocr saveOk root file =
        Event.ensureDir (outputDirOf root) :: Event.dispatch (inputPathOf root file) :: rest) ∧
    (Event.ensureDir (joinPath (outputDirOf root) "images") ∈ processFile fsEnv ocr saveOk root file ↔
      (convert_file (fsEnv (inputPathOf root file)) (inputPathOf root file)).1 ≠ none ∧
      (convert_file (fsEnv (inputPathOf root file)) (inputPathOf root file)).2 ≠ []) := by
  constructor
  · unfold processFile
    rw [if_pos h]
    exact ⟨_, rfl⟩
  · unfold processFile
    rw [if_pos h]
    rcases hc : convert_file (fsEnv (inputPathOf root file)) (inputPathOf root file) with ⟨t, imgs⟩
    have hne := joinPath_ne_self (outputDirOf root) "images"
    cases t with
    | none => simp [processBody, hne]
    | some md =>
        have hsv := ensureDir_mem_saveImages saveOk (outputDirOf root) imgs
        simp [processBody, hne, hsv]

/-- Witness for C7 (amended) at a PPTX file with one picture. -/
theorem c7_dir_creation_order_witness :
    lowerExt "a.pptx" ∈ SUPPORTED_TYPES ∧
    Event.ensureDir (joinPath (outputDirOf "data") "images") ∈
      processFile
        (fun _ => ⟨Except.error "", Except.error "",
          Except.ok ⟨[⟨[⟨none, 13, Except.ok 5⟩]⟩]⟩, Except.error ""⟩)
        (fun _ => Except.ok "") (fun _ => true) "data" "a.pptx" := by
  have h := c7_dir_creation_order
    (fun _ => ⟨Except.error "", Except.error "",
      Except.ok ⟨[⟨[⟨none, 13, Except.ok 5⟩]⟩]⟩, Except.error ""⟩)
    (fun _ => Except.ok "") (fun _ => true) "data" "a.pptx" (by decide)
  exact ⟨by decide, h.2.mpr ⟨by decide, by decide⟩⟩

/-- Claim C8: DOCX images are named `img_{relIndex}.png` with a 1-based
counter that advances over every relationship in iteration order, not only
image relationships — shown in general form and on a concrete document
where a non-image relationship creates the numbering gap 1, 3. -/
theorem c8_docx_rel_numbering (d : DocxDoc) :
    (convert_docx (Except.ok d)).2 =
      ((List.range' 1 d.rels.length).zip d.rels).flatMap (fun ir =>
        if hasSubstr "image".data ir.2.target_ref.data then
          match ir.2.blob with
          | .ok b => [(b, "img_" ++ toString ir.1 ++ ".png")]
          | .error _ => []
        else []) ∧
    (convert_docx (Except.ok ⟨[], [⟨"media/image1.png", Except.ok 7⟩,
        ⟨"word/styles.xml", Except.ok 8⟩,
        ⟨"media/image2.png", Except.ok 9⟩]⟩)).2.map Prod.snd = ["img_1.png", "img_3.png"] :=
  ⟨docxRelLoop_eq d.rels 1, by decide⟩

/-- Claim C9: a supported file whose extraction signals absent text still
gets its mirrored output subfolder ensured (before dispatch), and its trace
contains no image save and no Markdown write. -/
theorem c9_skip_leaves_directory (fsEnv : String → FileEnv) (ocr : String → Except String String)
    (saveOk : String → Bool) (root file : String)
    (h : lowerExt file ∈ SUPPORTED_TYPES)
    (habs : (convert_file (fsEnv (inputPathOf root file)) (inputPathOf root file)).1 = none) :
    processFile fsEnv ocr saveOk root file =
      [Event.ensureDir (outputDirOf root), Event.dispatch (inputPathOf root file),
        Event.logSkip (inputPathOf root file)] ∧
    Event.ensureDir (outputDirOf root) ∈ processFile fsEnv ocr saveOk root file := by
  have htr : processFile fsEnv ocr saveOk root file =
      [Event.ensureDir (outputDirOf root), Event.dispatch (inputPathOf root file),
        Event.logSkip (inputPathOf root file)] := by
    unfold processFile
    rw [if_pos h]
    rcases hc : convert_file (fsEnv (inputPathOf root file)) (inputPathOf root file) with ⟨t, imgs⟩
    rw [hc] at habs
    cases t with
    | none => rfl
    | some md => simp at habs
  exact ⟨htr, by rw [htr]; exact List.mem_cons_self _ _⟩

/-- Witness for C9 at a text file whose pandoc conversion fails. -/
theorem c9_skip_leaves_directory_witness :
    lowerExt "a.txt" ∈ SUPPORTED_TYPES ∧
    processFile (fun _ => ⟨Except.error "", Except.error "", Except.error "", Except.error "x"⟩)
        (fun _ => Except.ok "") (fun _ => true) "data" "a.txt" =
      [Event.ensureDir "clean_md/.", Event.dispatch "data/a.txt", Event.logSkip "data/a.txt"] := by
  have h := c9_skip_leaves_directory
    (fun _ => ⟨Except.error "", Except.error "", Except.error "", Except.error "x"⟩)
    (fun _ => Except.ok "") (fun _ => true) "data" "a.txt" (by decide) (by decide)
  exact ⟨by decide, h.1.trans (by decide)⟩

/-- Claim C10: the dispatcher is total — any path whose lowercase extension
is outside the supported set yields `(none, [])` rather than an error. -/
theorem c10_dispatcher_fallthrough (env : FileEnv) (p : String)
    (h : lowerExt p ∉ SUPPORTED_TYPES) :
    convert_file env p = (none, []) := by
  have h1 : lowerExt p ≠ ".pdf" := fun hh => h (by rw [hh]; decide)
  have h2 : lowerExt p ≠ ".docx" := fun hh => h (by rw [hh]; decide)
  have h3 : lowerExt p ≠ ".pptx" := fun hh => h (by rw [hh]; decide)
  have h4 : lowerExt p ∉ ([".txt", ".html", ".htm", ".rtf"] : List String) := by
    intro hm
    apply h
    simp only [List.mem_cons, List.not_mem_nil, or_false] at hm
    rcases hm with hh | hh | hh | hh <;> rw [hh] <;> decide
  simp only [convert_file]
  rw [if_neg h1, if_neg h2, if_neg h3, if_neg h4]

/-- Witness for C10 at a `.csv` path. -/
theorem c10_dispatcher_fallthrough_witness :
    lowerExt "a.csv" ∉ SUPPORTED_TYPES ∧
    convert_file ⟨Except.error "", Except.error "", Except.error "", Except.error ""⟩ "a.csv" =
      (none, []) :=
  ⟨by decide, c10_dispatcher_fallthrough _ _ (by decide)⟩

end DocuSpark
